import Mathlib

/-!
Verification development for `undeny.py`, a maintenance utility that removes
an IP address from the denyhosts access-control files and restarts the
denyhosts service.

The shallow embedding below translates the Python source into Lean:

* `re.search(ip, line)` (line 164 of the source) is modelled by `reSearch`,
  the fragment of Python regular expressions actually exercised here: the
  needle is a validated IP-address string, whose only regex metacharacter
  is `.` (match any one character); every other character matches itself.
* `socket.inet_aton` (line 118) is modelled by `inet_aton`, the classic
  numbers-and-dots notation: one to four parts separated by dots, each part
  decimal, octal (leading `0`) or hexadecimal (leading `0x`/`0X`), with the
  usual positional bounds.  (Acceptance of trailing whitespace, a quirk of
  some libc builds, is not modelled; no claim depends on it.)
* `delete_from_file` is modelled as a function of the file state plus a
  fault point `ErrPoint` saying which I/O step of the body, if any, raises:
  this makes every execution path of the `try/except IOError/else/finally`
  block a concrete input.  Exceptions raised in the `else` suite of a
  Python `try` statement are NOT handled by the `except` clauses, so the
  post-read faults (`backupFail`, `copyOverFail`, `chmodFail`) propagate
  out of the function (`DfRes.exn`); the `finally` suite only closes the
  temp file, it does not remove it.
* `main` is modelled over a `World` of external inputs (effective uid,
  argv, whether the log file opens, the service-command exit statuses, and
  the per-file states/fault points).  A bare Python `sys.exit()` raises
  `SystemExit(None)`, which terminates the process with exit status 0; an
  uncaught exception terminates it with status 1.  Output printed to
  stdout is not modelled; the trace records log records and invocations of
  the external service-control command.
-/

namespace Undeny

/-! ### The regex fragment used by `re.search(ip, line)`

The pattern is an IP-address string, so its characters are literals except
for `.`, which matches any single character. -/

/-- One pattern character against one text character: `.` matches anything,
every other character matches itself. -/
def charMatch (p c : Char) : Bool := p = '.' || p = c

/-- Does the pattern match a prefix of the text? -/
def matchAt : List Char → List Char → Bool
  | [], _ => true
  | _ :: _, [] => false
  | p :: ps, c :: cs => charMatch p c && matchAt ps cs

/-- `re.search`: does the pattern match at some position of the text? -/
def reSearch : List Char → List Char → Bool
  | pat, [] => matchAt pat []
  | pat, c :: cs => matchAt pat (c :: cs) || reSearch pat cs

/-- Literal (character-for-character) prefix test. -/
def prefEq : List Char → List Char → Bool
  | [], _ => true
  | _ :: _, [] => false
  | p :: ps, c :: cs => p = c && prefEq ps cs

/-- Literal substring containment: the needle occurs verbatim in the text. -/
def containsSub : List Char → List Char → Bool
  | pat, [] => prefEq pat []
  | pat, c :: cs => prefEq pat (c :: cs) || containsSub pat cs

/-- `re.search` on strings. -/
def reSearchS (pat line : String) : Bool := reSearch pat.toList line.toList

/-- Literal substring containment on strings. -/
def containsSubS (pat line : String) : Bool := containsSub pat.toList line.toList

/-! ### `check_valid_ip` / `socket.inet_aton` -/

/-- Decimal digit. -/
def isDecDigitC (c : Char) : Bool := '0' ≤ c && c ≤ '9'

/-- Octal digit. -/
def isOctDigitC (c : Char) : Bool := '0' ≤ c && c ≤ '7'

/-- Hexadecimal digit. -/
def isHexDigitC (c : Char) : Bool :=
  isDecDigitC c || ('a' ≤ c && c ≤ 'f') || ('A' ≤ c && c ≤ 'F')

/-- Value of a decimal (or octal) digit. -/
def decDigitVal (c : Char) : Nat := c.toNat - '0'.toNat

/-- Value of a hexadecimal digit. -/
def hexDigitVal (c : Char) : Nat :=
  if isDecDigitC c then c.toNat - '0'.toNat
  else if 'a' ≤ c && c ≤ 'f' then c.toNat - 'a'.toNat + 10
  else c.toNat - 'A'.toNat + 10

/-- Value of a digit string in the given base. -/
def digitsVal (base : Nat) (dv : Char → Nat) (l : List Char) : Nat :=
  l.foldl (fun acc c => acc * base + dv c) 0

/-- One numeric part of an `inet_aton` address: hexadecimal after `0x`/`0X`
(at least one digit required), octal after a leading `0` (a bare `0` is
valid), otherwise decimal. -/
def parsePart (p : List Char) : Option Nat :=
  if p.take 2 = ['0', 'x'] ∨ p.take 2 = ['0', 'X'] then
    (if p.drop 2 ≠ [] ∧ (p.drop 2).all isHexDigitC then
       some (digitsVal 16 hexDigitVal (p.drop 2)) else none)
  else if p.head? = some '0' then
    (if (p.drop 1).all isOctDigitC then
       some (digitsVal 8 decDigitVal (p.drop 1)) else none)
  else if p ≠ [] ∧ p.all isDecDigitC then some (digitsVal 10 decDigitVal p)
  else none

/-- Split a character list at every `.` (like splitting a C string at dots);
always returns at least one (possibly empty) part. -/
def splitDot : List Char → List (List Char)
  | [] => [[]]
  | c :: rest =>
    if c = '.' then [] :: splitDot rest
    else
      match splitDot rest with
      | [] => [[c]]
      | p :: ps => (c :: p) :: ps

/-- Parse every part, failing if any part fails. -/
def parseParts : List (List Char) → Option (List Nat)
  | [] => some []
  | p :: ps =>
    match parsePart p, parseParts ps with
    | some v, some vs => some (v :: vs)
    | _, _ => none

/-- `socket.inet_aton`: numbers-and-dots notation, one to four parts with
the classical positional bounds (`a`, `a.b`, `a.b.c`, `a.b.c.d`). -/
def inet_aton (s : String) : Bool :=
  match parseParts (splitDot s.toList) with
  | some [a] => decide (a < 4294967296)
  | some [a, b] => decide (a < 256 ∧ b < 16777216)
  | some [a, b, c] => decide (a < 256 ∧ b < 256 ∧ c < 65536)
  | some [a, b, c, d] => decide (a < 256 ∧ b < 256 ∧ c < 256 ∧ d < 256)
  | _ => false

/-- `check_valid_ip` (source lines 108-121): `socket.inet_aton(address)`
succeeds and the function returns `True`, or it raises and the bare
`except` returns `False`. -/
def check_valid_ip (address : String) : Bool := inet_aton address

/-- One decimal octet of a canonical dotted-quad address: nonempty, all
decimal digits, no leading zero (except the single digit `0`), value at
most 255.  This is the SPEC-side notion of "syntactically valid IPv4
dotted-quad address with each octet in 0-255", written down to be compared
with the code's `inet_aton` acceptance. -/
def decOctet (p : List Char) : Bool :=
  !p.isEmpty && p.all isDecDigitC &&
    (p = ['0'] || !(p.head? = some '0')) &&
    decide (digitsVal 10 decDigitVal p ≤ 255)

/-- Spec-side definition: a syntactically valid IPv4 dotted-quad address,
exactly four decimal octets in 0-255. -/
def isDottedQuad (s : String) : Bool :=
  match splitDot s.toList with
  | [a, b, c, d] => decOctet a && decOctet b && decOctet c && decOctet d
  | _ => false

/-! ### `delete_from_file` (source lines 145-191)

The state of the disk as far as one target file is concerned: the target
file's lines, the `_orig` backup (if one exists), the temporary scratch
file created by `tempfile.NamedTemporaryFile(delete=False)` (if one is on
disk), and the permission bits of the target file. -/

structure FS where
  target : List String
  backup : Option (List String)
  scratch : Option (List String)
  mode : Nat
deriving DecidableEq

/-- Fault point: which I/O step of `delete_from_file`, if any, raises.
`ok` is the fault-free run; `openFail` is `open(host_file, 'r')` raising
`IOError`; `readFail n` is an `IOError` raised by the read loop after `n`
lines were read; `backupFail`, `copyOverFail` and `chmodFail` are faults in
the three post-read steps `shutil.copy(host_file, host_file + '_orig')`,
`shutil.copy(temp_file.name, host_file)` and `os.chmod(host_file, 0644)`,
which sit in the `else` suite of the `try` statement and are therefore NOT
handled by the `except IOError` clause. -/
inductive ErrPoint where
  | ok
  | openFail
  | readFail (n : Nat)
  | backupFail
  | copyOverFail
  | chmodFail
deriving DecidableEq

/-- Does this fault point escape `delete_from_file` as an uncaught
exception?  Only the post-read faults do. -/
def ErrPoint.raises : ErrPoint → Bool
  | .backupFail => true
  | .copyOverFail => true
  | .chmodFail => true
  | _ => false

/-- Is this fault point one that the `except IOError` clause catches
(so that `delete_from_file` returns `False`)? -/
def ErrPoint.isCaughtFail : ErrPoint → Bool
  | .openFail => true
  | .readFail _ => true
  | _ => false

/-- How a call to `delete_from_file` terminates: a returned status, or an
uncaught exception propagating to the caller. -/
inductive DfRes where
  | ret (status : Bool)
  | exn
deriving DecidableEq

/-- An observable event: a log record (`logging.error` / `logging.info`;
`logging.debug` records are suppressed because the log level is INFO), or
an invocation of the external service-control command together with its
reported success. -/
inductive Ev where
  | logError (msg : String)
  | logInfo (msg : String)
  | svcCall (action : String) (ok : Bool)
deriving DecidableEq

/-- Result of one `delete_from_file` call: how it terminated, the resulting
disk state, and the log records it emitted. -/
structure DfOut where
  res : DfRes
  fs : FS
  log : List Ev
deriving DecidableEq

/-- The line is copied to the scratch file iff `re.search(ip, line)` finds
no match (source lines 163-169). -/
def keepLine (ip line : String) : Bool := !(reSearchS ip line)

/-- `delete_from_file(host_file, ip)` (source lines 145-191), as a function
of the fault point.  Walkthrough of the source against each branch:

* `ok`: the read loop copies the non-matching lines to the scratch file;
  the `else` suite then backs the target up to `host_file + '_orig'`,
  copies the scratch file over the target, chmods the target to `0644`
  and removes the scratch file; returns `True`.
* `openFail` / `readFail n`: the `except IOError` clause logs the error,
  closes and removes the scratch file and returns `False`; the target,
  the backup and the mode are untouched.
* `backupFail`: the first `shutil.copy` raises; the exception is not
  caught (it is in the `else` suite), the `finally` suite only closes the
  scratch file, so the scratch file (holding the filtered lines) remains
  on disk and nothing else changed.
* `copyOverFail`: the backup was made, then `shutil.copy(temp_file.name,
  host_file)` raises; the scratch file remains.  (A failed copy could in
  reality leave the target truncated; the model leaves it unchanged — no
  claim depends on the target's content on this path.)
* `chmodFail`: backup made, target rewritten, then `os.chmod` raises;
  the mode is unchanged and the scratch file remains. -/
def delete_from_file (ip : String) (e : ErrPoint) (fs : FS) : DfOut :=
  match e with
  | .ok =>
    { res := .ret true
      fs := { target := fs.target.filter (keepLine ip)
              backup := some fs.target
              scratch := none
              mode := 0o644 }
      log := [] }
  | .openFail =>
    { res := .ret false
      fs := { fs with scratch := none }
      log := [.logError "  Error: probably could not be opened."] }
  | .readFail _ =>
    { res := .ret false
      fs := { fs with scratch := none }
      log := [.logError "  Error: probably could not be opened."] }
  | .backupFail =>
    { res := .exn
      fs := { fs with scratch := some (fs.target.filter (keepLine ip)) }
      log := [] }
  | .copyOverFail =>
    { res := .exn
      fs := { fs with
              backup := some fs.target
              scratch := some (fs.target.filter (keepLine ip)) }
      log := [] }
  | .chmodFail =>
    { res := .exn
      fs := { target := fs.target.filter (keepLine ip)
              backup := some fs.target
              scratch := some (fs.target.filter (keepLine ip))
              mode := fs.mode }
      log := [] }

/-! ### `denyhosts_action` (source lines 124-142) -/

/-- `denyhosts_action(action)`: any action other than `'start'` or `'stop'`
returns `False` at once, before the `subprocess.call` and before any
logging.  Otherwise `service denyhosts action` is invoked (`exitOk` models
whether its exit status is zero); success emits only a `logging.debug`
record, which the INFO log level suppresses; failure emits a
`logging.error` record. -/
def denyhosts_action (action : String) (exitOk : Bool) : Bool × List Ev :=
  if action ≠ "start" ∧ action ≠ "stop" then (false, [])
  else if exitOk then (true, [.svcCall action true])
  else (false, [.svcCall action false,
                .logError ("  Error: " ++ action ++ " denyhosts failure")])

/-! ### `main` (source lines 199-246) -/

/-- How the file-processing loop of `main` (source lines 238-242) ends:
all files done, the loop `break` after a `False` return, or an uncaught
exception from `delete_from_file`. -/
inductive PfRes where
  | done
  | aborted
  | crashed
deriving DecidableEq

/-- The `for host_file in denyhosts_files` loop: call `delete_from_file`
on each file; on the first `False` return, log `'  Error: exiting loop'`
and `break`, leaving the remaining files untouched; an uncaught exception
also leaves the remaining files untouched but propagates out of `main`. -/
def processFiles (ip : String) : List (FS × ErrPoint) → PfRes × List FS × List Ev
  | [] => (.done, [], [])
  | (fs, e) :: rest =>
    let d := delete_from_file ip e fs
    match d.res with
    | .ret true =>
      let r := processFiles ip rest
      (r.1, d.fs :: r.2.1, d.log ++ r.2.2)
    | .ret false =>
      (.aborted, d.fs :: rest.map Prod.fst,
        d.log ++ [.logError "  Error: exiting loop"])
    | .exn => (.crashed, d.fs :: rest.map Prod.fst, d.log)

/-- The external inputs of one run: the effective uid, the argument vector
(`argv.head` is the program name), whether `logging.basicConfig` can open
the log file, the exit statuses the service-control command will report
for stop and start, and the state and fault point of each target file, in
the fixed order of `denyhosts_files`. -/
structure World where
  euid : Nat
  argv : List String
  logOpenOk : Bool
  stopExitOk : Bool
  startExitOk : Bool
  files : List (FS × ErrPoint)

/-- How the process terminates: a bare `sys.exit()` (process exit status
0), a normal return from `main` (exit status 0), or an uncaught exception
(exit status 1). -/
inductive Term where
  | exitedEarly
  | completed
  | crashed
deriving DecidableEq

/-- Observable outcome of one run of the program. -/
structure MainResult where
  term : Term
  exitCode : Nat
  trace : List Ev
  files : List FS
deriving DecidableEq

/-- `main()` (source lines 199-246): check `os.geteuid() == 0`; check
`len(sys.argv) == 2`; check `check_valid_ip(sys.argv[1])`; open the log
file; log the info line; stop denyhosts, exiting if that fails; run the
file loop; then always attempt to start denyhosts again (its failure only
logs — the file states are not touched).  Each failed check does a bare
`sys.exit()`.  An uncaught exception from the file loop skips the start
attempt and kills the process. -/
def main (w : World) : MainResult :=
  if w.euid ≠ 0 then
    { term := .exitedEarly, exitCode := 0, trace := [], files := w.files.map Prod.fst }
  else if w.argv.length ≠ 2 then
    { term := .exitedEarly, exitCode := 0, trace := [], files := w.files.map Prod.fst }
  else if check_valid_ip (w.argv.getD 1 "") = false then
    { term := .exitedEarly, exitCode := 0, trace := [], files := w.files.map Prod.fst }
  else if w.logOpenOk = false then
    { term := .exitedEarly, exitCode := 0, trace := [], files := w.files.map Prod.fst }
  else if (denyhosts_action "stop" w.stopExitOk).1 = false then
    { term := .exitedEarly, exitCode := 0
      trace := .logInfo ("deleting " ++ w.argv.getD 1 "") ::
        (denyhosts_action "stop" w.stopExitOk).2
      files := w.files.map Prod.fst }
  else if (processFiles (w.argv.getD 1 "") w.files).1 = .crashed then
    { term := .crashed, exitCode := 1
      trace := .logInfo ("deleting " ++ w.argv.getD 1 "") ::
        ((denyhosts_action "stop" w.stopExitOk).2
          ++ (processFiles (w.argv.getD 1 "") w.files).2.2)
      files := (processFiles (w.argv.getD 1 "") w.files).2.1 }
  else
    { term := .completed, exitCode := 0
      trace := .logInfo ("deleting " ++ w.argv.getD 1 "") ::
        ((denyhosts_action "stop" w.stopExitOk).2
          ++ (processFiles (w.argv.getD 1 "") w.files).2.2
          ++ (denyhosts_action "start" w.startExitOk).2)
      files := (processFiles (w.argv.getD 1 "") w.files).2.1 }

/-- The fixed ordered target list (source lines 87-94). -/
def denyhosts_files : List String :=
  [ "/etc/hosts.deny",
    "/var/lib/denyhosts/hosts",
    "/var/lib/denyhosts/hosts-restricted",
    "/var/lib/denyhosts/hosts-root",
    "/var/lib/denyhosts/hosts-valid",
    "/var/lib/denyhosts/users-hosts",
    "/var/lib/denyhosts/users-invalid" ]

/-- The configured log sink (source line 84). -/
def LOGFILE : String := "/root/undeny.log"

/-! ### Helper lemmas -/

/-- A literal prefix match is in particular a regex prefix match. -/
theorem matchAt_of_prefEq (pat : List Char) :
    ∀ l, prefEq pat l = true → matchAt pat l = true := by
  induction pat with
  | nil => intro l _; rfl
  | cons p ps ih =>
    intro l h
    cases l with
    | nil => simp [prefEq] at h
    | cons c cs =>
      simp only [prefEq, Bool.and_eq_true, decide_eq_true_eq] at h
      obtain ⟨rfl, h2⟩ := h
      simp [matchAt, charMatch, ih cs h2]

/-- Literal substring containment implies a regex match: every regex
metacharacter of the pattern fragment (`.`) also matches its own literal
occurrence. -/
theorem reSearch_of_containsSub (pat l : List Char) :
    containsSub pat l = true → reSearch pat l = true := by
  induction l with
  | nil => exact fun h => matchAt_of_prefEq pat [] h
  | cons c cs ih =>
    intro h
    simp only [containsSub, Bool.or_eq_true] at h
    simp only [reSearch, Bool.or_eq_true]
    rcases h with h | h
    · exact Or.inl (matchAt_of_prefEq _ _ h)
    · exact Or.inr (ih h)

/-- Filtering twice with the same predicate is the same as filtering once. -/
theorem filter_self_idem {α : Type} (p : α → Bool) (l : List α) :
    (l.filter p).filter p = l.filter p := by
  induction l with
  | nil => rfl
  | cons a t ih =>
    by_cases h : p a = true
    · simp [List.filter_cons, h, ih]
    · simp [List.filter_cons, h, ih]

/-- A filter that keeps every element is the identity. -/
theorem filter_eq_self_of_all {α : Type} (p : α → Bool) (l : List α)
    (h : ∀ a ∈ l, p a = true) : l.filter p = l := by
  induction l with
  | nil => rfl
  | cons a t ih =>
    simp [List.filter_cons, h a (by simp), ih (fun b hb => h b (by simp [hb]))]

/-! ### Claims C1-C4: `delete_from_file` -/

/-- Claim C1, counterexample.  The claim says `delete_from_file` removes
exactly the lines containing the needle as a substring.  But the needle is
passed to `re.search` as a regular expression, where `.` matches any
character: the line `"1a2b3c4x"` does not contain `"1.2.3.4"` as a
substring, yet a fault-free run on a file holding only that line removes
it (the output file is empty). -/
theorem delete_drops_line_without_needle_substring :
    containsSubS "1.2.3.4" "1a2b3c4x" = false ∧
    (delete_from_file "1.2.3.4" .ok ⟨["1a2b3c4x"], none, none, 0o644⟩).res = .ret true ∧
    (delete_from_file "1.2.3.4" .ok ⟨["1a2b3c4x"], none, none, 0o644⟩).fs.target = [] := by
  decide

/-- Claim C1, amended.  A fault-free run of `delete_from_file` keeps
exactly the lines on which `re.search` finds no match of the needle (so
the surviving lines appear unmodified in their original relative order,
and a line is absent from the output iff the needle, read as a regular
expression in which `.` matches any character, matches somewhere in it);
in particular every line containing the needle as a literal substring is
removed. -/
theorem delete_filters_by_regex_match (ip : String) (fs : FS) :
    (delete_from_file ip .ok fs).fs.target = fs.target.filter (keepLine ip) ∧
    ∀ line : String, containsSubS ip line = true → keepLine ip line = false := by
  refine ⟨rfl, fun line h => ?_⟩
  have hm : reSearch ip.toList line.toList = true := reSearch_of_containsSub _ _ h
  simp only [keepLine, reSearchS, hm, Bool.not_true]

/-- Claim C1, witness for the amended theorem. -/
theorem delete_filters_by_regex_match_witness :
    keepLine "1.2.3.4" "x 1.2.3.4 y" = false :=
  (delete_filters_by_regex_match "1.2.3.4" ⟨[], none, none, 0o644⟩).2
    "x 1.2.3.4 y" (by decide)

/-- Claim C2.  If an `IOError` is raised while reading the target file
(after any number `n` of lines), `delete_from_file` returns `False`, the
target file's lines, backup and mode are unchanged, and the scratch file
has been removed from disk. -/
theorem delete_read_error_leaves_target_and_removes_scratch
    (ip : String) (fs : FS) (n : Nat) :
    (delete_from_file ip (.readFail n) fs).res = .ret false ∧
    (delete_from_file ip (.readFail n) fs).fs.target = fs.target ∧
    (delete_from_file ip (.readFail n) fs).fs.backup = fs.backup ∧
    (delete_from_file ip (.readFail n) fs).fs.mode = fs.mode ∧
    (delete_from_file ip (.readFail n) fs).fs.scratch = none :=
  ⟨rfl, rfl, rfl, rfl, rfl⟩

/-- Claim C3, counterexample.  The claim says the scratch file is removed
on EVERY execution path.  But an error raised in the `else` suite of the
`try` statement (here: `os.chmod` failing after both copies succeeded) is
not handled by the `except IOError` clause, and the `finally` suite only
closes the temp file — it does not remove it.  On that path the call ends
in an uncaught exception and the scratch file is still on disk. -/
theorem delete_chmod_error_scratch_persists :
    (delete_from_file "1.2.3.4" .chmodFail ⟨["1.2.3.4 sshd"], none, none, 0o644⟩).res
      = .exn ∧
    (delete_from_file "1.2.3.4" .chmodFail ⟨["1.2.3.4 sshd"], none, none, 0o644⟩).fs.scratch
      = some [] := by
  decide

/-- Claim C3, amended.  The scratch file is removed by the end of the
operation on every path on which no step of the post-read `else` suite
raises: the fault-free path and both caught read-phase failure paths
(`open` failing, or an `IOError` partway through the read loop). -/
theorem delete_scratch_removed_on_nonraising_paths
    (ip : String) (fs : FS) (e : ErrPoint) (h : e.raises = false) :
    (delete_from_file ip e fs).fs.scratch = none := by
  cases e with
  | ok => rfl
  | openFail => rfl
  | readFail n => rfl
  | backupFail => simp [ErrPoint.raises] at h
  | copyOverFail => simp [ErrPoint.raises] at h
  | chmodFail => simp [ErrPoint.raises] at h

/-- Claim C3, witness for the amended theorem. -/
theorem delete_scratch_removed_on_nonraising_paths_witness :
    (delete_from_file "1.2.3.4" .openFail ⟨["a"], none, none, 0o644⟩).fs.scratch = none :=
  delete_scratch_removed_on_nonraising_paths "1.2.3.4" ⟨["a"], none, none, 0o644⟩
    .openFail (by decide)

/-- Claim C4, counterexample.  The claim says a successful run is an
identity on every file in which the needle does not occur.  The needle
`"1.2.3.4"` does not occur (as a string) in the one-line file
`"1x2x3x4 denied"`, yet a fault-free run returns success and changes the
file's content, because `re.search` treats each `.` of the needle as a
wildcard. -/
theorem sanitizer_changes_file_without_substring_occurrence :
    containsSubS "1.2.3.4" "1x2x3x4 denied" = false ∧
    (delete_from_file "1.2.3.4" .ok ⟨["1x2x3x4 denied"], none, none, 0o644⟩).res
      = .ret true ∧
    (delete_from_file "1.2.3.4" .ok ⟨["1x2x3x4 denied"], none, none, 0o644⟩).fs.target
      ≠ ["1x2x3x4 denied"] := by
  decide

/-- Claim C4, amended.  For every file in which no line is matched by the
needle as a regular expression, a fault-free run leaves the file's content
identical to the input and writes a backup equal to the original content;
and (for every file whatsoever) running the sanitizer twice in succession
with the same needle leaves the file after the second run identical to its
state after the first run. -/
theorem sanitizer_noop_and_idempotent (ip : String) (fs fs' : FS)
    (h : ∀ l ∈ fs.target, reSearchS ip l = false) :
    (delete_from_file ip .ok fs).fs.target = fs.target ∧
    (delete_from_file ip .ok fs).fs.backup = some fs.target ∧
    (delete_from_file ip .ok (delete_from_file ip .ok fs').fs).fs.target
      = (delete_from_file ip .ok fs').fs.target := by
  refine ⟨?_, rfl, ?_⟩
  · show fs.target.filter (keepLine ip) = fs.target
    exact filter_eq_self_of_all _ _ (fun a ha => by simp [keepLine, h a ha])
  · show (fs'.target.filter (keepLine ip)).filter (keepLine ip)
        = fs'.target.filter (keepLine ip)
    exact filter_self_idem _ _

/-- Claim C4, witness for the amended theorem. -/
theorem sanitizer_noop_and_idempotent_witness :
    (delete_from_file "1.2.3.4" .ok ⟨["5.6.7.8 blocked"], none, none, 0o644⟩).fs.target
      = ["5.6.7.8 blocked"] ∧
    (delete_from_file "1.2.3.4" .ok ⟨["5.6.7.8 blocked"], none, none, 0o644⟩).fs.backup
      = some ["5.6.7.8 blocked"] ∧
    (delete_from_file "1.2.3.4" .ok
        (delete_from_file "1.2.3.4" .ok ⟨["1.2.3.4 a"], none, none, 0o644⟩).fs).fs.target
      = (delete_from_file "1.2.3.4" .ok ⟨["1.2.3.4 a"], none, none, 0o644⟩).fs.target :=
  sanitizer_noop_and_idempotent "1.2.3.4" ⟨["5.6.7.8 blocked"], none, none, 0o644⟩
    ⟨["1.2.3.4 a"], none, none, 0o644⟩ (by decide)

/-! ### Claim C5: the file-processing loop -/

/-- On a caught failure (open failing or an `IOError` in the read loop),
`delete_from_file` returns `False`, removes the scratch file, touches
nothing else, and logs the error. -/
theorem delete_caught_fail (ip : String) (fs : FS) (e : ErrPoint)
    (he : e.isCaughtFail = true) :
    delete_from_file ip e fs =
      { res := .ret false, fs := { fs with scratch := none },
        log := [.logError "  Error: probably could not be opened."] } := by
  cases e with
  | ok => simp [ErrPoint.isCaughtFail] at he
  | openFail => rfl
  | readFail n => rfl
  | backupFail => simp [ErrPoint.isCaughtFail] at he
  | copyOverFail => simp [ErrPoint.isCaughtFail] at he
  | chmodFail => simp [ErrPoint.isCaughtFail] at he

/-- Claim C5.  If every file before some point of the target list is
processed without fault, and `delete_from_file` fails (returns `False`)
on the file at that point, then the loop halts there with the abort
logged: every earlier file carries the state `delete_from_file` gave it
(its matching lines removed and its backup written), the failing file is
left as the failed call left it, and every later file is completely
untouched. -/
theorem processFiles_halt_log_and_untouched_after_failure
    (ip : String) (pre post : List (FS × ErrPoint)) (fs : FS) (e : ErrPoint)
    (hpre : ∀ p ∈ pre, p.2 = ErrPoint.ok) (he : e.isCaughtFail = true) :
    (processFiles ip (pre ++ (fs, e) :: post)).1 = .aborted ∧
    (processFiles ip (pre ++ (fs, e) :: post)).2.1 =
      pre.map (fun p => (delete_from_file ip p.2 p.1).fs)
        ++ (delete_from_file ip e fs).fs :: post.map Prod.fst ∧
    Ev.logError "  Error: exiting loop" ∈ (processFiles ip (pre ++ (fs, e) :: post)).2.2 := by
  induction pre with
  | nil =>
    rw [List.nil_append]
    have hd := delete_caught_fail ip fs e he
    refine ⟨?_, ?_, ?_⟩ <;> simp [processFiles, hd]
  | cons p ps ih =>
    have hp : p.2 = ErrPoint.ok := hpre p (List.mem_cons_self p ps)
    have hps : ∀ q ∈ ps, q.2 = ErrPoint.ok := fun q hq => hpre q (List.mem_cons_of_mem _ hq)
    obtain ⟨h1, h2, h3⟩ := ih hps
    obtain ⟨pfs, pe⟩ := p
    simp only at hp
    subst hp
    rw [List.cons_append]
    refine ⟨h1, ?_, h3⟩
    rw [List.map_cons, List.cons_append]
    exact congrArg (List.cons _) h2

/-- Claim C5, witness: list `[A, B, C]` where `A` succeeds, `B` fails with
a caught read error, `C` is untouched. -/
theorem processFiles_halt_witness :
    (processFiles "1.2.3.4"
        ([(⟨["1.2.3.4 a", "5.6.7.8 b"], none, none, 0o644⟩, ErrPoint.ok)] ++
          (⟨["1.2.3.4 c"], none, none, 0o644⟩, ErrPoint.openFail) ::
            [(⟨["1.2.3.4 d"], none, none, 0o644⟩, ErrPoint.ok)])).1 = .aborted ∧
    (processFiles "1.2.3.4"
        ([(⟨["1.2.3.4 a", "5.6.7.8 b"], none, none, 0o644⟩, ErrPoint.ok)] ++
          (⟨["1.2.3.4 c"], none, none, 0o644⟩, ErrPoint.openFail) ::
            [(⟨["1.2.3.4 d"], none, none, 0o644⟩, ErrPoint.ok)])).2.1 =
      [(⟨["1.2.3.4 a", "5.6.7.8 b"], none, none, 0o644⟩, ErrPoint.ok)].map
          (fun p => (delete_from_file "1.2.3.4" p.2 p.1).fs)
        ++ (delete_from_file "1.2.3.4" ErrPoint.openFail
              ⟨["1.2.3.4 c"], none, none, 0o644⟩).fs ::
            [(⟨["1.2.3.4 d"], none, none, 0o644⟩, ErrPoint.ok)].map Prod.fst ∧
    Ev.logError "  Error: exiting loop" ∈
      (processFiles "1.2.3.4"
        ([(⟨["1.2.3.4 a", "5.6.7.8 b"], none, none, 0o644⟩, ErrPoint.ok)] ++
          (⟨["1.2.3.4 c"], none, none, 0o644⟩, ErrPoint.openFail) ::
            [(⟨["1.2.3.4 d"], none, none, 0o644⟩, ErrPoint.ok)])).2.2 :=
  processFiles_halt_log_and_untouched_after_failure "1.2.3.4"
    [(⟨["1.2.3.4 a", "5.6.7.8 b"], none, none, 0o644⟩, ErrPoint.ok)]
    [(⟨["1.2.3.4 d"], none, none, 0o644⟩, ErrPoint.ok)]
    ⟨["1.2.3.4 c"], none, none, 0o644⟩ ErrPoint.openFail
    (by decide) (by decide)

/-! ### Claims C6-C9: `main` -/

/-- If no file's fault point raises an uncaught exception, the loop never
ends in the `crashed` state. -/
theorem processFiles_ne_crashed (ip : String) (l : List (FS × ErrPoint))
    (h : ∀ p ∈ l, p.2.raises = false) : (processFiles ip l).1 ≠ PfRes.crashed := by
  induction l with
  | nil => simp [processFiles]
  | cons p ps ih =>
    obtain ⟨pfs, pe⟩ := p
    have hpe : pe.raises = false := h (pfs, pe) (List.mem_cons_self _ _)
    have hps : ∀ q ∈ ps, q.2.raises = false := fun q hq => h q (List.mem_cons_of_mem _ hq)
    cases pe with
    | ok => exact ih hps
    | openFail => exact fun hc => PfRes.noConfusion hc
    | readFail n => exact fun hc => PfRes.noConfusion hc
    | backupFail => simp [ErrPoint.raises] at hpe
    | copyOverFail => simp [ErrPoint.raises] at hpe
    | chmodFail => simp [ErrPoint.raises] at hpe

/-- A run in which every startup check passes and `os.chmod` raises on the
first (and only) target file. -/
def chmodCrashWorld : World :=
  { euid := 0, argv := ["./undeny.py", "1.2.3.4"], logOpenOk := true,
    stopExitOk := true, startExitOk := true,
    files := [(⟨["1.2.3.4 sshd"], none, none, 0o644⟩, .chmodFail)] }

/-- A run invoked without root privilege. -/
def nonRootWorld : World :=
  { euid := 1000, argv := ["./undeny.py", "1.2.3.4"], logOpenOk := true,
    stopExitOk := true, startExitOk := true,
    files := [(⟨["1.2.3.4 sshd"], none, none, 0o644⟩, .ok)] }

/-- A run invoked without an address argument. -/
def noArgWorld : World :=
  { euid := 0, argv := ["./undeny.py"], logOpenOk := true, stopExitOk := true,
    startExitOk := true, files := [(⟨["1.2.3.4 sshd"], none, none, 0o644⟩, .ok)] }

/-- A run invoked with the invalid address `"999.999.999.999"`. -/
def badAddrWorld : World :=
  { euid := 0, argv := ["./undeny.py", "999.999.999.999"], logOpenOk := true,
    stopExitOk := true, startExitOk := true,
    files := [(⟨["999.999.999.999 a"], none, none, 0o644⟩, .ok)] }

/-- A fault-free run. -/
def happyWorld : World :=
  { euid := 0, argv := ["./undeny.py", "1.2.3.4"], logOpenOk := true,
    stopExitOk := true, startExitOk := true,
    files := [(⟨["1.2.3.4 sshd", "5.6.7.8 keep"], none, none, 0o644⟩, .ok)] }

/-- Claim C6, counterexample.  The claim says that in EVERY run reaching
the file-processing phase the service start is attempted afterwards.  In
`chmodCrashWorld` the run reaches the phase (the trace shows the
successful stop call), `os.chmod` raises on the first file, the uncaught
exception kills the process, and no start invocation appears in the
trace. -/
theorem main_uncaught_error_skips_start :
    (main chmodCrashWorld).term = .crashed ∧
    (main chmodCrashWorld).exitCode = 1 ∧
    (main chmodCrashWorld).trace
      = [.logInfo "deleting 1.2.3.4", .svcCall "stop" true] := by
  decide

/-- Claim C6, amended.  In every run that reaches the file-processing
phase and in which no file's fault raises an uncaught exception (each
attempted file either succeeds or fails with a caught I/O error),
starting the service is attempted afterwards — the trace contains a start
invocation — regardless of whether all files were sanitized successfully;
and a start failure does not undo any file edit: the final file states
are exactly those produced by the file loop, whatever the start command's
exit status. -/
theorem main_attempts_start_after_processing (w : World)
    (heuid : w.euid = 0) (hargv : w.argv.length = 2)
    (hip : check_valid_ip (w.argv.getD 1 "") = true)
    (hlog : w.logOpenOk = true) (hstop : w.stopExitOk = true)
    (hfiles : ∀ p ∈ w.files, p.2.raises = false) :
    Ev.svcCall "start" w.startExitOk ∈ (main w).trace ∧
    (main w).files = (processFiles (w.argv.getD 1 "") w.files).2.1 := by
  unfold main
  rw [if_neg (by simp only [heuid]; decide), if_neg (by simp only [hargv]; decide),
      if_neg (by simp only [hip]; decide), if_neg (by simp only [hlog]; decide),
      if_neg (by rw [hstop]; decide), if_neg (processFiles_ne_crashed _ _ hfiles)]
  refine ⟨?_, rfl⟩
  cases hst : w.startExitOk
  · simp [show denyhosts_action "start" false
      = (false, [Ev.svcCall "start" false,
                 Ev.logError "  Error: start denyhosts failure"]) from rfl]
  · simp [show denyhosts_action "start" true
      = (true, [Ev.svcCall "start" true]) from rfl]

/-- Claim C6, witness for the amended theorem. -/
theorem main_attempts_start_after_processing_witness :
    Ev.svcCall "start" happyWorld.startExitOk ∈ (main happyWorld).trace ∧
    (main happyWorld).files
      = (processFiles (happyWorld.argv.getD 1 "") happyWorld.files).2.1 :=
  main_attempts_start_after_processing happyWorld (by decide) (by decide)
    (by decide) (by decide) (by decide) (by decide)

/-- Claim C7.  Any failure of the startup checks — wrong effective uid,
wrong argument count, invalid address, unopenable log sink, or a failing
service stop — aborts the run with every target file unmodified; and for
the privilege and validation failures no service-control command has been
invoked at all (the trace holds no such invocation). -/
theorem main_failures_abort_without_mutation (w : World) :
    ((w.euid ≠ 0 ∨ w.argv.length ≠ 2 ∨ check_valid_ip (w.argv.getD 1 "") = false
        ∨ w.logOpenOk = false ∨ w.stopExitOk = false) →
      (main w).files = w.files.map Prod.fst ∧ (main w).term = .exitedEarly) ∧
    ((w.euid ≠ 0 ∨ w.argv.length ≠ 2 ∨ check_valid_ip (w.argv.getD 1 "") = false) →
      ∀ a ok, Ev.svcCall a ok ∉ (main w).trace) := by
  constructor
  · intro h
    unfold main
    split_ifs with h1 h2 h3 h4 h5 h6
    · exact ⟨rfl, rfl⟩
    · exact ⟨rfl, rfl⟩
    · exact ⟨rfl, rfl⟩
    · exact ⟨rfl, rfl⟩
    · exact ⟨rfl, rfl⟩
    · rcases h with h | h | h | h | h
      exacts [absurd h h1, absurd h h2, absurd h h3, absurd h h4,
              absurd (by rw [h]; decide) h5]
    · rcases h with h | h | h | h | h
      exacts [absurd h h1, absurd h h2, absurd h h3, absurd h h4,
              absurd (by rw [h]; decide) h5]
  · intro h a ok
    unfold main
    split_ifs with h1 h2 h3 h4 h5 h6
    · simp
    · simp
    · simp
    · simp
    · rcases h with h | h | h
      exacts [absurd h h1, absurd h h2, absurd h h3]
    · rcases h with h | h | h
      exacts [absurd h h1, absurd h h2, absurd h h3]
    · rcases h with h | h | h
      exacts [absurd h h1, absurd h h2, absurd h h3]

/-- Claim C7, witness. -/
theorem main_failures_abort_without_mutation_witness :
    (main nonRootWorld).files = nonRootWorld.files.map Prod.fst ∧
    (main nonRootWorld).term = .exitedEarly :=
  (main_failures_abort_without_mutation nonRootWorld).1 (Or.inl (by decide))

/-! ### Claim C8: address validation -/

/-- A canonical decimal octet is parsed by `parsePart` as the same decimal
value (a bare `0` goes through the octal branch, with the same value), and
that value is below 256. -/
theorem parsePart_of_decOctet (p : List Char) (h : decOctet p = true) :
    parsePart p = some (digitsVal 10 decDigitVal p) ∧
    digitsVal 10 decDigitVal p < 256 := by
  simp only [decOctet, Bool.and_eq_true, Bool.or_eq_true, Bool.not_eq_true',
    decide_eq_true_eq, decide_eq_false_iff_not] at h
  obtain ⟨⟨⟨hne, hall⟩, hlz⟩, hle⟩ := h
  refine ⟨?_, Nat.lt_of_le_of_lt hle (by decide)⟩
  rcases hlz with hz | hh
  · subst hz
    decide
  · cases p with
    | nil => simp at hne
    | cons c cs =>
      have hc : c ≠ '0' := fun hc0 => hh (by simp [hc0])
      have h1 : ¬((c :: cs).take 2 = ['0', 'x'] ∨ (c :: cs).take 2 = ['0', 'X']) := by
        rintro (ht | ht) <;> (simp [List.take_succ_cons] at ht; exact hc ht.1)
      have h3 : (c :: cs) ≠ [] ∧ (c :: cs).all isDecDigitC := ⟨by simp, hall⟩
      unfold parsePart
      rw [if_neg h1, if_neg hh, if_pos h3]

/-- Claim C8, counterexample.  The claim says `check_valid_ip` accepts a
string iff it is a dotted-quad IPv4 address.  But `socket.inet_aton` also
accepts the shorthand numbers-and-dots forms: `"127.1"` is accepted even
though it is not a dotted quad. -/
theorem check_valid_ip_accepts_non_dotted_quad :
    check_valid_ip "127.1" = true ∧ isDottedQuad "127.1" = false := by
  decide

/-- Claim C8, amended.  `check_valid_ip` accepts exactly the strings
`socket.inet_aton` accepts (numbers-and-dots notation): every canonical
dotted-quad address with octets in 0-255 is accepted, but so are
shorthand, octal and hexadecimal forms; the input `"999.999.999.999"` is
rejected, and a run invoked with it terminates before any service
invocation or file action. -/
theorem check_valid_ip_numbers_and_dots :
    (∀ s : String, isDottedQuad s = true → check_valid_ip s = true) ∧
    check_valid_ip "999.999.999.999" = false ∧
    (main badAddrWorld).term = .exitedEarly ∧
    (main badAddrWorld).trace = [] ∧
    (main badAddrWorld).files = badAddrWorld.files.map Prod.fst := by
  refine ⟨?_, by decide, by decide, by decide, by decide⟩
  intro s h
  unfold isDottedQuad at h
  unfold check_valid_ip inet_aton
  rcases hsp : splitDot s.toList with _ | ⟨a, _ | ⟨b, _ | ⟨c, _ | ⟨d, _ | ⟨e, rest⟩⟩⟩⟩⟩ <;>
      rw [hsp] at h
  · exact Bool.noConfusion h
  · exact Bool.noConfusion h
  · exact Bool.noConfusion h
  · exact Bool.noConfusion h
  · have h' : (decOctet a && decOctet b && decOctet c && decOctet d) = true := h
    simp only [Bool.and_eq_true] at h'
    obtain ⟨⟨⟨ha, hb⟩, hc'⟩, hd⟩ := h'
    obtain ⟨hpa, hba⟩ := parsePart_of_decOctet a ha
    obtain ⟨hpb, hbb⟩ := parsePart_of_decOctet b hb
    obtain ⟨hpc, hbc⟩ := parsePart_of_decOctet c hc'
    obtain ⟨hpd, hbd⟩ := parsePart_of_decOctet d hd
    have hpp : parseParts [a, b, c, d] =
        some [digitsVal 10 decDigitVal a, digitsVal 10 decDigitVal b,
              digitsVal 10 decDigitVal c, digitsVal 10 decDigitVal d] := by
      simp [parseParts, hpa, hpb, hpc, hpd]
    rw [hpp]
    exact decide_eq_true ⟨hba, hbb, hbc, hbd⟩
  · exact Bool.noConfusion h

/-- Claim C8, witness for the amended theorem. -/
theorem check_valid_ip_numbers_and_dots_witness :
    check_valid_ip "10.20.30.40" = true :=
  check_valid_ip_numbers_and_dots.1 "10.20.30.40" (by decide)

/-! ### Claim C9: exit behavior -/

/-- Claim C9, counterexample.  The claim says the program terminates early
with a NON-ZERO/aborted exit status on a missing argument.  The code calls
a bare `sys.exit()`, which raises `SystemExit(None)` and terminates the
process with exit status 0: in `noArgWorld` the run does terminate early
and untouched, but its exit status is 0. -/
theorem main_early_exit_status_zero :
    (main noArgWorld).term = .exitedEarly ∧
    (main noArgWorld).exitCode = 0 ∧
    (main noArgWorld).trace = [] ∧
    (main noArgWorld).files = noArgWorld.files.map Prod.fst := by
  decide

/-- Claim C9, amended.  The program terminates early, via a bare
`sys.exit()` whose process exit status is 0 (not non-zero), on a missing
or invalid argument, missing privilege, an unopenable log sink, or a
failing service stop; otherwise — provided no file's fault raises an
uncaught exception — the run proceeds through the file loop and the start
attempt and terminates normally with exit status 0, even if some file
failed partway. -/
theorem main_exit_behavior (w : World) :
    ((w.euid ≠ 0 ∨ w.argv.length ≠ 2 ∨ check_valid_ip (w.argv.getD 1 "") = false
        ∨ w.logOpenOk = false ∨ w.stopExitOk = false) →
      (main w).term = .exitedEarly ∧ (main w).exitCode = 0) ∧
    (w.euid = 0 → w.argv.length = 2 → check_valid_ip (w.argv.getD 1 "") = true →
      w.logOpenOk = true → w.stopExitOk = true →
      (∀ p ∈ w.files, p.2.raises = false) →
      (main w).term = .completed ∧ (main w).exitCode = 0) := by
  constructor
  · intro h
    unfold main
    split_ifs with h1 h2 h3 h4 h5 h6
    · exact ⟨rfl, rfl⟩
    · exact ⟨rfl, rfl⟩
    · exact ⟨rfl, rfl⟩
    · exact ⟨rfl, rfl⟩
    · exact ⟨rfl, rfl⟩
    · rcases h with h | h | h | h | h
      exacts [absurd h h1, absurd h h2, absurd h h3, absurd h h4,
              absurd (by rw [h]; decide) h5]
    · rcases h with h | h | h | h | h
      exacts [absurd h h1, absurd h h2, absurd h h3, absurd h h4,
              absurd (by rw [h]; decide) h5]
  · intro h0 h1 h2 h3 h4 h5
    unfold main
    rw [if_neg (by simp only [h0]; decide), if_neg (by simp only [h1]; decide),
        if_neg (by simp only [h2]; decide), if_neg (by simp only [h3]; decide),
        if_neg (by rw [h4]; decide), if_neg (processFiles_ne_crashed _ _ h5)]
    exact ⟨rfl, rfl⟩

/-- Claim C9, witness for the amended theorem. -/
theorem main_exit_behavior_witness :
    (main happyWorld).term = .completed ∧ (main happyWorld).exitCode = 0 :=
  (main_exit_behavior happyWorld).2 (by decide) (by decide) (by decide)
    (by decide) (by decide) (by decide)

/-! ### Claim C10: the service controller on invalid actions -/

/-- Claim C10.  For every action other than `'start'` and `'stop'`,
`denyhosts_action` returns `False` immediately, with no service-command
invocation and no log record (its event list is empty); and whenever the
function produces any event at all (in particular a service-command
invocation), the action was `'start'` or `'stop'`. -/
theorem denyhosts_action_invalid_action_noop (action : String) (exitOk : Bool)
    (h1 : action ≠ "start") (h2 : action ≠ "stop") :
    denyhosts_action action exitOk = (false, []) ∧
    (∀ a : String, ∀ ok : Bool, (denyhosts_action a ok).2 ≠ [] →
      a = "start" ∨ a = "stop") := by
  constructor
  · unfold denyhosts_action
    rw [if_pos ⟨h1, h2⟩]
  · intro a ok hne
    by_cases ha : a = "start"
    · exact Or.inl ha
    by_cases hb : a = "stop"
    · exact Or.inr hb
    exfalso
    apply hne
    unfold denyhosts_action
    rw [if_pos ⟨ha, hb⟩]

/-- Claim C10, witness. -/
theorem denyhosts_action_invalid_action_noop_witness :
    denyhosts_action "restart" true = (false, []) :=
  (denyhosts_action_invalid_action_noop "restart" true (by decide) (by decide)).1

end Undeny
